import Mathlib

/-!
Shallow embedding of the cross-chain message router
(`src/runtime/parachains/src/router.rs`) and proofs about its
DMP / UMP / HRMP storage and operations.

Modelling conventions:
- Storage maps (`map hasher(...) K => V`) are total functions `K → V`
  returning the storage default (`[]`, `none`, `(0, 0)`) for absent keys;
  `remove` writes the default back.
- `u32` arithmetic wraps: the runtime is compiled in release mode, so
  `+=` on `u32` reduces modulo `2 ^ 32`.  `usize` values (vector lengths)
  are exact: on the wasm32 target `usize` is `u32` and a vector is
  shorter than `2 ^ 32`.
- `slice::binary_search` is embedded through its documented contract on
  sorted slices: found iff member; `binary_search`+`remove` is `List.erase`,
  `binary_search`+`insert` is a sorted insert that is a no-op on members.
  Theorems about the functions that use it carry the repository's
  documented sortedness invariant as a hypothesis.
- The hash primitive (`BlakeTwo256::hash_of` over the SCALE encoding of
  `(prev_head, sent_at, hash(msg))`) is an external collaborator and is
  passed in as an abstract `HashScheme`.
- The `xcm` module of the source is embedded verbatim: `Xcm` is an empty
  enum, so decoding always fails and execution is unreachable.
-/

namespace Router

abbrev ParaId := Nat

/-- An upward message is an opaque byte string (`Vec<u8>`). -/
abbrev UpwardMessage := List Nat

/-- A downward message is an opaque byte string (`Vec<u8>`). -/
abbrev DownwardMessage := List Nat

/-- Abstract fixed-width hash value; `0` is the all-zero sentinel. -/
abbrev Hash := Nat

/-- `InboundDownwardMessage { sent_at, msg }`. -/
structure InboundDownwardMessage where
  sent_at : Nat
  msg : DownwardMessage
deriving DecidableEq, Repr

/-- `InboundHrmpMessage { sent_at, data }`. -/
structure InboundHrmpMessage where
  sent_at : Nat
  data : List Nat
deriving DecidableEq, Repr

/-- `HrmpChannelId = (sender, recipient)`. -/
abbrev HrmpChannelId := ParaId × ParaId

/-- `HrmpOpenChannelRequest` of the source. -/
structure HrmpOpenChannelRequest where
  confirmed : Bool
  age : Nat
  sender_deposit : Nat
  limit_used_places : Nat
  limit_used_bytes : Nat
deriving DecidableEq, Repr

/-- `HrmpChannel` metadata of the source. -/
structure HrmpChannel where
  sender_deposit : Nat
  recipient_deposit : Nat
  limit_used_places : Nat
  limit_used_bytes : Nat
  limit_message_size : Nat
  used_places : Nat
  used_bytes : Nat
  mqc_head : Option Hash
deriving DecidableEq, Repr

/-- The configuration options of `HostConfiguration` that the router reads. -/
structure HostConfiguration where
  critical_downward_message_size : Nat
  max_upward_message_num_per_candidate : Nat
  max_upward_queue_count : Nat
  max_upward_queue_size : Nat
  preferred_dispatchable_upward_messages_step_weight : Nat
  dispatchable_upward_message_critical_weight : Nat
deriving DecidableEq, Repr

/-- The router's storage (`decl_storage!` of the source), one field per item. -/
structure State where
  outgoingParas : List ParaId
  downwardMessageQueues : ParaId → List InboundDownwardMessage
  downwardMessageQueueHeads : ParaId → Option Hash
  relayDispatchQueues : ParaId → List UpwardMessage
  relayDispatchQueueSize : ParaId → Nat × Nat
  needsDispatch : List ParaId
  nextDispatchRoundStartWith : Option ParaId
  hrmpOpenChannelRequests : HrmpChannelId → Option HrmpOpenChannelRequest
  hrmpOpenChannelRequestsList : List HrmpChannelId
  hrmpOpenChannelRequestCount : ParaId → Nat
  hrmpAcceptedChannelRequestCount : ParaId → Nat
  hrmpCloseChannelRequests : HrmpChannelId → Option Unit
  hrmpCloseChannelRequestsList : List HrmpChannelId
  hrmpWatermarks : ParaId → Option Nat
  hrmpChannels : HrmpChannelId → Option HrmpChannel
  hrmpIngressChannelsIndex : ParaId → List ParaId
  hrmpEgressChannelsIndex : ParaId → List ParaId
  hrmpChannelContents : HrmpChannelId → List InboundHrmpMessage
  hrmpChannelDigests : ParaId → List (Nat × List ParaId)

/-- Point update of a storage map (`insert` / `remove`-to-default). -/
def mapUpdate {κ : Type} [DecidableEq κ] {α : Type} (f : κ → α) (k : κ) (v : α) : κ → α :=
  fun x => if x = k then v else f x

/-- `Option::filter` of Rust: keep the value iff the predicate holds on it. -/
def optionFilter {α : Type} (p : α → Bool) : Option α → Option α
  | some a => if p a then some a else none
  | none => none

/-- Sorted insertion as performed by `binary_search` + `insert(i, x)` on an
ascending duplicate-free vector: a no-op when the element is present. -/
def sortedInsert (x : Nat) : List Nat → List Nat
  | [] => [x]
  | y :: ys =>
    if y < x then y :: sortedInsert x ys
    else if y = x then y :: ys
    else x :: y :: ys

/-- SCALE compact-length prefix size for a collection of `n` items. -/
def compactLen (n : Nat) : Nat :=
  if n < 2 ^ 6 then 1
  else if n < 2 ^ 14 then 2
  else if n < 2 ^ 30 then 4
  else 1 + (Nat.log 256 n + 1)

/-- `msg.encode().len()` for a `Vec<u8>`: compact length prefix plus payload. -/
def encodedLenVecU8 (msg : List Nat) : Nat :=
  compactLen msg.length + msg.length

/-- The external hashing collaborator: `hashTuple` is
`BlakeTwo256::hash_of((prev_head, sent_at, msg_hash))`, `hashMsg` is
`T::Hashing::hash_of(msg)`. -/
structure HashScheme where
  hashTuple : Hash → Nat → Hash → Hash
  hashMsg : DownwardMessage → Hash

/-- `schedule_para_cleanup`: insert the para into `OutgoingParas`,
preserving ascending order and uniqueness. -/
def schedule_para_cleanup (id : ParaId) (s : State) : State :=
  { s with outgoingParas := sortedInsert id s.outgoingParas }

/-- The body of the per-para loop of `initializer_on_new_session`. -/
def cleanupOutgoing (s : State) (p : ParaId) : State :=
  { s with
    downwardMessageQueues := mapUpdate s.downwardMessageQueues p []
    downwardMessageQueueHeads := mapUpdate s.downwardMessageQueueHeads p none
    relayDispatchQueueSize := mapUpdate s.relayDispatchQueueSize p (0, 0)
    relayDispatchQueues := mapUpdate s.relayDispatchQueues p []
    needsDispatch := s.needsDispatch.erase p
    nextDispatchRoundStartWith :=
      optionFilter (fun q => q == p) s.nextDispatchRoundStartWith }

/-- `initializer_on_new_session`: take `OutgoingParas` and clean up the
DMP and UMP footprint of each outgoing para.  Note that the source keeps
`NextDispatchRoundStartWith` iff it equals the outgoing para
(`*v = v.filter(|p| *p == outgoing_para)`), and touches no HRMP map. -/
def initializer_on_new_session (s : State) : State :=
  s.outgoingParas.foldl cleanupOutgoing { s with outgoingParas := [] }

/-- `queue_downward_message`, in state-passing form; the returned `Except`
mirrors the `Result<(), ()>` of the source, and the returned state the
storage after the call. -/
def queue_downward_message (H : HashScheme) (config : HostConfiguration)
    (para : ParaId) (msg : DownwardMessage) (now : Nat) (s : State) :
    Except Unit Unit × State :=
  let serialized_len := encodedLenVecU8 msg
  if config.critical_downward_message_size < serialized_len then
    (Except.error (), s)
  else
    let inbound : InboundDownwardMessage := { sent_at := now, msg := msg }
    let prev_head := (s.downwardMessageQueueHeads para).getD 0
    let new_head := H.hashTuple prev_head inbound.sent_at (H.hashMsg inbound.msg)
    (Except.ok (),
      { s with
        downwardMessageQueueHeads :=
          mapUpdate s.downwardMessageQueueHeads para (some new_head)
        downwardMessageQueues :=
          mapUpdate s.downwardMessageQueues para
            (s.downwardMessageQueues para ++ [inbound]) })

/-- Repeated `queue_downward_message` calls; a failed call leaves the state
unchanged (the caller only surfaces the error). -/
def enqueueSeq (H : HashScheme) (config : HostConfiguration) (para : ParaId)
    (seq : List (DownwardMessage × Nat)) (s : State) : State :=
  seq.foldl (fun st pr => (queue_downward_message H config para pr.1 pr.2 st).2) s

/-- `check_processed_downward_messages`. -/
def check_processed_downward_messages (para : ParaId)
    (processed_downward_messages : Nat) (s : State) : Bool :=
  let dmq_length := (s.downwardMessageQueues para).length
  if 0 < dmq_length ∧ processed_downward_messages = 0 then false
  else if dmq_length < processed_downward_messages then false
  else true

/-- One step of the count/size accumulation used by `check_upward_messages`
(`para_queue_count += 1; para_queue_size += msg.len() as u32`) and by the
fold of `enact_upward_messages`: `u32` additions wrap in release builds. -/
def queueStep (cs : Nat × Nat) (m : UpwardMessage) : Nat × Nat :=
  ((cs.1 + 1) % 2 ^ 32, (cs.2 + m.length) % 2 ^ 32)

/-- `check_upward_messages`: the source accumulates the hypothetical queue
count and byte size with `u32` additions (wrapping in release builds) and
compares them with the configured caps.  Pure: no state is returned. -/
def check_upward_messages (config : HostConfiguration) (para : ParaId)
    (upward_messages : List UpwardMessage) (s : State) : Bool :=
  if config.max_upward_message_num_per_candidate < upward_messages.length then
    false
  else
    let pq := upward_messages.foldl queueStep (s.relayDispatchQueueSize para)
    if config.max_upward_queue_count < pq.1 ∨ config.max_upward_queue_size < pq.2 then
      false
    else
      true

/-- `enact_upward_messages`; `dbw r w` models `T::DbWeight::get().reads_writes`,
the returned `Nat` is the weight. -/
def enact_upward_messages (dbw : Nat → Nat → Nat) (para : ParaId)
    (upward_messages : List UpwardMessage) (s : State) : Nat × State :=
  if upward_messages.isEmpty then (0, s)
  else
    let extra := upward_messages.foldl queueStep (0, 0)
    let old := s.relayDispatchQueueSize para
    (0 + dbw 3 3,
      { s with
        relayDispatchQueues :=
          mapUpdate s.relayDispatchQueues para
            (s.relayDispatchQueues para ++ upward_messages)
        relayDispatchQueueSize :=
          mapUpdate s.relayDispatchQueueSize para
            ((old.1 + extra.1) % 2 ^ 32, (old.2 + extra.2) % 2 ^ 32)
        needsDispatch := sortedInsert para s.needsDispatch })

/-- `prune_dmq`: drop the first `processed_downward_messages` messages
(clearing the queue when the count exceeds the length). -/
def prune_dmq (para : ParaId) (processed_downward_messages : Nat) (s : State) : State :=
  { s with
    downwardMessageQueues :=
      mapUpdate s.downwardMessageQueues para
        (let q := s.downwardMessageQueues para
         if q.length < processed_downward_messages then []
         else q.drop processed_downward_messages) }

/-- `dmq_mqc_head`. -/
def dmq_mqc_head (para : ParaId) (s : State) : Option Hash :=
  s.downwardMessageQueueHeads para

/-- `dmq_length`. -/
def dmq_length (para : ParaId) (s : State) : Nat :=
  (s.downwardMessageQueues para).length

/-- The `xcm` plug of the source: an empty enum. -/
inductive Xcm : Type
deriving DecidableEq

/-- `Xcm::decode`: decoding a value of an empty enum always fails. -/
def xcmDecode (_bytes : List Nat) : Option Xcm := none

/-- `xcm::estimate_weight` (`match *xcm {}`). -/
def xcmEstimateWeight (x : Xcm) : Nat := nomatch x

/-- `xcm::execute` (`match xcm {}`). -/
def xcmExecute (x : Xcm) : Except Nat Nat := nomatch x

/-- The in-memory state of the dispatcher loop of
`process_pending_upward_messages`: accumulated weight, the lazily loaded
`queue_cache` (`none` = not yet touched), the working copy of
`NeedsDispatch` and the round-robin index. -/
structure LoopState where
  weight : Nat
  queueCache : ParaId → Option (List UpwardMessage)
  needsDispatch : List ParaId
  idx : Nat

/-- Effective queue of a para: the cached copy if touched, else storage. -/
def cacheLen (cache : ParaId → Option (List UpwardMessage))
    (storage : ParaId → List UpwardMessage) (p : ParaId) : Nat :=
  ((cache p).getD (storage p)).length

/-- Termination measure of the dispatcher loop: messages still reachable
through `needs_dispatch` plus the length of `needs_dispatch`. -/
def loopMeasure (cache : ParaId → Option (List UpwardMessage))
    (storage : ParaId → List UpwardMessage) (needs : List ParaId) : Nat :=
  (needs.map (cacheLen cache storage)).sum + needs.length

/-- The tail of an iteration of the `loop` of
`process_pending_upward_messages`, after the index advance and the weight
check: dequeue the next message from the (lazily cached) queue of the
dispatchee, decode and execute it, and drop the dispatchee from
`needs_dispatch` when its queue became empty.  The `debug_assert!(false)`
arm is compiled out in release builds, and `binary_search`+`remove` is
embedded as `List.erase` (their behaviours agree on the sorted
`NeedsDispatch`). -/
def dispatchStep (config : HostConfiguration)
    (storage : ParaId → List UpwardMessage) (ls : LoopState)
    (dispatchee : ParaId) (idx : Nat) : LoopState :=
  let queue := (ls.queueCache dispatchee).getD (storage dispatchee)
  let popped : List UpwardMessage × Nat :=
    match queue with
    | [] => ([], ls.weight)
    | m :: rest =>
      (rest,
        match xcmDecode m with
        | some x =>
          if xcmEstimateWeight x ≤ config.dispatchable_upward_message_critical_weight then
            ls.weight +
              (match xcmExecute x with
               | Except.ok w => w
               | Except.error w => w)
          else ls.weight
        | none => ls.weight)
  { weight := popped.2
    queueCache := mapUpdate ls.queueCache dispatchee (some popped.1)
    needsDispatch :=
      if popped.1.isEmpty then ls.needsDispatch.erase dispatchee
      else ls.needsDispatch
    idx := idx }

/-- One-to-one embedding of the `loop` of `process_pending_upward_messages`,
with explicit fuel; `none` means the fuel ran out or a `usize` modulo by
zero would have trapped. -/
def dispatchLoop (config : HostConfiguration)
    (storage : ParaId → List UpwardMessage) :
    Nat → LoopState → Option LoopState
  | 0, _ => none
  | Nat.succ fuel, ls =>
    match ls.needsDispatch.get? ls.idx with
    | none => some ls
    | some dispatchee =>
      if ls.needsDispatch.length = 0 then none
      else
        let idx := (ls.idx + 1) % ls.needsDispatch.length
        if config.preferred_dispatchable_upward_messages_step_weight ≤ ls.weight then
          some { ls with idx := idx }
        else
          dispatchLoop config storage fuel
            (dispatchStep config storage ls dispatchee idx)

/-- The loop state at entry of `process_pending_upward_messages`: empty
cache, `NeedsDispatch` from storage, index from `NextDispatchRoundStartWith`
(`binary_search`: position if found, 0 otherwise). -/
def initialLoopState (s : State) : LoopState :=
  { weight := 0
    queueCache := fun _ => none
    needsDispatch := s.needsDispatch
    idx :=
      match s.nextDispatchRoundStartWith with
      | some para =>
        if para ∈ s.needsDispatch then s.needsDispatch.indexOf para else 0
      | none => 0 }

/-- `process_pending_upward_messages`.  After the loop the source persists
only `NextDispatchRoundStartWith` and `NeedsDispatch`; the `queue_cache`
is dropped without being written back.  The fuel is one more than the
loop measure, which the termination theorem shows sufficient; the `none`
fallback is unreachable. -/
def process_pending_upward_messages (config : HostConfiguration) (s : State) : State :=
  match dispatchLoop config s.relayDispatchQueues
      (loopMeasure (fun _ => none) s.relayDispatchQueues s.needsDispatch + 1)
      (initialLoopState s) with
  | some ls =>
    { s with
      nextDispatchRoundStartWith := ls.needsDispatch.get? ls.idx
      needsDispatch := ls.needsDispatch }
  | none => s

/-- UMP size-cache invariant of the source's storage comments: the cached
pair is the count of messages and the summed payload length. -/
def UmpInvariant (s : State) : Prop :=
  ∀ p, (s.relayDispatchQueueSize p).1 = (s.relayDispatchQueues p).length ∧
    (s.relayDispatchQueueSize p).2 = ((s.relayDispatchQueues p).map List.length).sum

/-- `NeedsDispatch` invariant: strictly ascending, and exactly the paras
with a nonempty dispatch queue. -/
def NeedsDispatchInvariant (s : State) : Prop :=
  List.Sorted (· < ·) s.needsDispatch ∧
    ∀ p, p ∈ s.needsDispatch ↔ s.relayDispatchQueues p ≠ []

/-- The all-empty storage. -/
def initState : State :=
  { outgoingParas := []
    downwardMessageQueues := fun _ => []
    downwardMessageQueueHeads := fun _ => none
    relayDispatchQueues := fun _ => []
    relayDispatchQueueSize := fun _ => (0, 0)
    needsDispatch := []
    nextDispatchRoundStartWith := none
    hrmpOpenChannelRequests := fun _ => none
    hrmpOpenChannelRequestsList := []
    hrmpOpenChannelRequestCount := fun _ => 0
    hrmpAcceptedChannelRequestCount := fun _ => 0
    hrmpCloseChannelRequests := fun _ => none
    hrmpCloseChannelRequestsList := []
    hrmpWatermarks := fun _ => none
    hrmpChannels := fun _ => none
    hrmpIngressChannelsIndex := fun _ => []
    hrmpEgressChannelsIndex := fun _ => []
    hrmpChannelContents := fun _ => []
    hrmpChannelDigests := fun _ => [] }

/-- A concrete hash collaborator for witnesses. -/
def testHash : HashScheme :=
  { hashTuple := fun a b c => (a + 1) * 1000000 + b * 1000 + c
    hashMsg := fun m => m.sum + m.length }

/-- A concrete configuration for witnesses. -/
def testConfig : HostConfiguration :=
  { critical_downward_message_size := 7
    max_upward_message_num_per_candidate := 1
    max_upward_queue_count := 5
    max_upward_queue_size := 5
    preferred_dispatchable_upward_messages_step_weight := 1000
    dispatchable_upward_message_critical_weight := 1000 }

/-- State with the para `5` scheduled as outgoing and
`NextDispatchRoundStartWith = Some(5)`. -/
def c1StateA : State :=
  { initState with outgoingParas := [5], nextDispatchRoundStartWith := some 5 }

/-- State with the para `5` scheduled as outgoing and
`NextDispatchRoundStartWith = Some(9)` where `9` is not outgoing. -/
def c1StateB : State :=
  { initState with outgoingParas := [5], nextDispatchRoundStartWith := some 9 }

/-- State with the para `7` outgoing and an HRMP channel `(7, 9)` open. -/
def c3State : State :=
  { initState with
    outgoingParas := [7]
    hrmpChannels := fun c =>
      if c = (7, 9) then some ⟨0, 0, 0, 0, 0, 0, 0, none⟩ else none }

/-- Scenario S1 state: DMP messages queued to paras `1312`, `228` and `123`,
with `1312` and `228` scheduled as outgoing. -/
def c9State : State :=
  { initState with
    outgoingParas := [228, 1312]
    downwardMessageQueues := fun p =>
      if p = 1312 then [⟨1, [1, 2, 3]⟩]
      else if p = 228 then [⟨1, [4, 5, 6]⟩]
      else if p = 123 then [⟨1, [7, 8, 9]⟩]
      else []
    downwardMessageQueueHeads := fun p =>
      if p = 1312 ∨ p = 228 ∨ p = 123 then some 42 else none }

/-- The state after one successful `queue_downward_message` call on the
empty storage (used by the C4 witness). -/
def c4AfterState : State :=
  (queue_downward_message testHash testConfig 3 [1] 5 initState).2

/-- State whose UMP size cache for para `1` sits at the `u32` maximum. -/
def c5State : State :=
  { initState with
    relayDispatchQueueSize := fun p => if p = 1 then (4294967295, 0) else (0, 0) }

/-- State whose UMP size cache for para `1` is one below the cap of
`testConfig`. -/
def c5WitnessState : State :=
  { initState with
    relayDispatchQueueSize := fun p => if p = 1 then (4, 0) else (0, 0) }

/-- State whose UMP size cache for para `1` sits exactly at the cap of
`testConfig`. -/
def c5RejState : State :=
  { initState with
    relayDispatchQueueSize := fun p => if p = 1 then (5, 0) else (0, 0) }

/-- State whose UMP queue for para `1` holds `2^32 - 1` messages, with a
consistent size cache. -/
def c7State : State :=
  { initState with
    relayDispatchQueues := fun p => if p = 1 then List.replicate 4294967295 [] else []
    relayDispatchQueueSize := fun p => if p = 1 then (4294967295, 0) else (0, 0)
    needsDispatch := [1] }

/-- State with one pending upward message for para `1`, all invariants
holding on storage. -/
def c2State : State :=
  { initState with
    relayDispatchQueues := fun p => if p = 1 then [[1]] else []
    relayDispatchQueueSize := fun p => if p = 1 then (1, 1) else (0, 0)
    needsDispatch := [1] }

/-- A dispatcher starting state exercising the defensive paths:
`NextDispatchRoundStartWith` names the para `9` absent from
`NeedsDispatch`, and para `1` is in `NeedsDispatch` with an empty stored
queue. -/
def c10State : State :=
  { initState with
    relayDispatchQueues := fun p => if p = 2 then [[7]] else []
    relayDispatchQueueSize := fun p => if p = 2 then (1, 1) else (0, 0)
    needsDispatch := [1, 2]
    nextDispatchRoundStartWith := some 9 }

/-- Small state with one queued upward message for para `3` and a
consistent size cache. -/
def c7WitnessState : State :=
  { initState with
    relayDispatchQueues := fun p => if p = 3 then [[1]] else []
    relayDispatchQueueSize := fun p => if p = 3 then (1, 1) else (0, 0)
    needsDispatch := [3] }

end Router

namespace Router

/-- `sortedInsert` never loses or invents elements beyond the inserted one. -/
theorem mem_sortedInsert (x q : Nat) (l : List Nat) :
    q ∈ sortedInsert x l ↔ q = x ∨ q ∈ l := by
  induction l with
  | nil => simp [sortedInsert]
  | cons y ys ih =>
    by_cases h1 : y < x
    · simp only [sortedInsert, if_pos h1, List.mem_cons, ih]
      tauto
    · by_cases h2 : y = x
      · simp only [sortedInsert, if_neg h1, if_pos h2, List.mem_cons]
        subst h2; tauto
      · simp only [sortedInsert, if_neg h1, if_neg h2, List.mem_cons]

/-- `sortedInsert` preserves strict ascending order. -/
theorem sorted_sortedInsert (x : Nat) (l : List Nat)
    (h : List.Sorted (· < ·) l) : List.Sorted (· < ·) (sortedInsert x l) := by
  induction l with
  | nil => simp [sortedInsert]
  | cons y ys ih =>
    rw [List.sorted_cons] at h
    by_cases h1 : y < x
    · rw [sortedInsert, if_pos h1, List.sorted_cons]
      refine ⟨?_, ih h.2⟩
      intro b hb
      rcases (mem_sortedInsert x b ys).1 hb with rfl | hby
      · exact h1
      · exact h.1 b hby
    · by_cases h2 : y = x
      · rw [sortedInsert, if_neg h1, if_pos h2]
        exact List.sorted_cons.2 h
      · rw [sortedInsert, if_neg h1, if_neg h2, List.sorted_cons]
        have hxy : x < y := by omega
        refine ⟨?_, List.sorted_cons.2 h⟩
        intro b hb
        rcases List.mem_cons.1 hb with rfl | hby
        · exact hxy
        · exact lt_trans hxy (h.1 b hby)

/-- Claim C8: `prune_dmq(P, n)` removes exactly the first `min(n, L)`
messages of `DownwardMessageQueues[P]`, leaves the MQC head and every other
storage item unchanged, and `prune_dmq(P, 0)` is a no-op on the queue. -/
theorem prune_dmq_frame (para n : Nat) (s : State) :
    (∀ q, (prune_dmq para n s).downwardMessageQueues q =
      if q = para then
        (s.downwardMessageQueues para).drop
          (min n (s.downwardMessageQueues para).length)
      else s.downwardMessageQueues q) ∧
    (prune_dmq para n s).downwardMessageQueueHeads = s.downwardMessageQueueHeads ∧
    (prune_dmq para n s).outgoingParas = s.outgoingParas ∧
    (prune_dmq para n s).relayDispatchQueues = s.relayDispatchQueues ∧
    (prune_dmq para n s).relayDispatchQueueSize = s.relayDispatchQueueSize ∧
    (prune_dmq para n s).needsDispatch = s.needsDispatch ∧
    (prune_dmq para n s).nextDispatchRoundStartWith = s.nextDispatchRoundStartWith ∧
    (prune_dmq para n s).hrmpOpenChannelRequests = s.hrmpOpenChannelRequests ∧
    (prune_dmq para n s).hrmpOpenChannelRequestsList = s.hrmpOpenChannelRequestsList ∧
    (prune_dmq para n s).hrmpOpenChannelRequestCount = s.hrmpOpenChannelRequestCount ∧
    (prune_dmq para n s).hrmpAcceptedChannelRequestCount = s.hrmpAcceptedChannelRequestCount ∧
    (prune_dmq para n s).hrmpCloseChannelRequests = s.hrmpCloseChannelRequests ∧
    (prune_dmq para n s).hrmpCloseChannelRequestsList = s.hrmpCloseChannelRequestsList ∧
    (prune_dmq para n s).hrmpWatermarks = s.hrmpWatermarks ∧
    (prune_dmq para n s).hrmpChannels = s.hrmpChannels ∧
    (prune_dmq para n s).hrmpIngressChannelsIndex = s.hrmpIngressChannelsIndex ∧
    (prune_dmq para n s).hrmpEgressChannelsIndex = s.hrmpEgressChannelsIndex ∧
    (prune_dmq para n s).hrmpChannelContents = s.hrmpChannelContents ∧
    (prune_dmq para n s).hrmpChannelDigests = s.hrmpChannelDigests ∧
    (∀ q, (prune_dmq para 0 s).downwardMessageQueues q = s.downwardMessageQueues q) := by
  refine ⟨?_, rfl, rfl, rfl, rfl, rfl, rfl, rfl, rfl, rfl, rfl, rfl, rfl, rfl,
    rfl, rfl, rfl, rfl, rfl, ?_⟩
  · intro q
    by_cases h : q = para
    · subst h
      simp only [prune_dmq, mapUpdate, if_pos rfl]
      by_cases h2 : (s.downwardMessageQueues q).length < n
      · rw [if_pos h2, Nat.min_eq_right (Nat.le_of_lt h2), List.drop_length]
      · rw [if_neg h2, Nat.min_eq_left (Nat.le_of_not_lt h2)]
    · simp [prune_dmq, mapUpdate, h]
  · intro q
    by_cases h : q = para
    · subst h
      simp [prune_dmq, mapUpdate]
    · simp [prune_dmq, mapUpdate, h]

/-- Claim C6: `queue_downward_message` fails iff the SCALE-encoded length
of the message exceeds `critical_downward_message_size`, and on failure the
state is completely unchanged. -/
theorem queue_downward_message_error_iff (H : HashScheme)
    (config : HostConfiguration) (para : ParaId) (msg : DownwardMessage)
    (now : Nat) (s : State) :
    ((queue_downward_message H config para msg now s).1 = Except.error () ↔
      config.critical_downward_message_size < encodedLenVecU8 msg) ∧
    ((queue_downward_message H config para msg now s).1 = Except.error () →
      (queue_downward_message H config para msg now s).2 = s) := by
  by_cases h : config.critical_downward_message_size < encodedLenVecU8 msg
  · constructor
    · simp [queue_downward_message, h]
    · intro _
      simp [queue_downward_message, h]
  · constructor
    · simp [queue_downward_message, h]
    · intro hc
      simp [queue_downward_message, h] at hc

/-- Witness for C6: with `critical_downward_message_size = 7`, a payload of
8 bytes (encoding to 9 bytes) is rejected with the state untouched, while a
payload of 6 bytes (encoding to exactly 7 bytes) is accepted. -/
theorem queue_downward_message_error_iff_witness :
    ((queue_downward_message testHash testConfig 1 [0, 0, 0, 0, 0, 0, 0, 0] 1 initState).1
        = Except.error () ∧
      (queue_downward_message testHash testConfig 1 [0, 0, 0, 0, 0, 0, 0, 0] 1 initState).2
        = initState) ∧
    (queue_downward_message testHash testConfig 1 [0, 0, 0, 0, 0, 0] 1 initState).1
      ≠ Except.error () := by
  have big := queue_downward_message_error_iff testHash testConfig 1
    [0, 0, 0, 0, 0, 0, 0, 0] 1 initState
  have small := queue_downward_message_error_iff testHash testConfig 1
    [0, 0, 0, 0, 0, 0] 1 initState
  have hbig : (queue_downward_message testHash testConfig 1
      [0, 0, 0, 0, 0, 0, 0, 0] 1 initState).1 = Except.error () :=
    big.1.2 (by decide)
  refine ⟨⟨hbig, big.2 hbig⟩, ?_⟩
  intro hc
  have := small.1.1 hc
  revert this
  decide

/-- Claim C1 (code bug evaluation): after `initializer_on_new_session`, the
source's `*v = v.filter(|p| *p == outgoing_para)` KEEPS
`NextDispatchRoundStartWith` when it names the outgoing para `5` and CLEARS
it when it names the non-outgoing para `9` — the opposite of the claimed
(and intended) behaviour. -/
theorem next_dispatch_round_start_with_filter_evaluation :
    (initializer_on_new_session c1StateA).nextDispatchRoundStartWith = some 5 ∧
    (initializer_on_new_session c1StateB).nextDispatchRoundStartWith = none := by
  constructor <;> rfl

/-- The cleanup loop empties the DMP queue of every visited para and
leaves the others untouched. -/
theorem foldl_cleanup_dmq (l : List ParaId) (s : State) (q : ParaId) :
    (l.foldl cleanupOutgoing s).downwardMessageQueues q =
      if q ∈ l then [] else s.downwardMessageQueues q := by
  induction l generalizing s with
  | nil => simp
  | cons p rest ih =>
    rw [List.foldl_cons, ih]
    by_cases hq : q ∈ rest
    · simp [hq]
    · by_cases hqp : q = p
      · subst hqp; simp [hq, cleanupOutgoing, mapUpdate]
      · simp [hq, hqp, cleanupOutgoing, mapUpdate]

/-- The cleanup loop clears the MQC head of every visited para and leaves
the others untouched. -/
theorem foldl_cleanup_heads (l : List ParaId) (s : State) (q : ParaId) :
    (l.foldl cleanupOutgoing s).downwardMessageQueueHeads q =
      if q ∈ l then none else s.downwardMessageQueueHeads q := by
  induction l generalizing s with
  | nil => simp
  | cons p rest ih =>
    rw [List.foldl_cons, ih]
    by_cases hq : q ∈ rest
    · simp [hq]
    · by_cases hqp : q = p
      · subst hqp; simp [hq, cleanupOutgoing, mapUpdate]
      · simp [hq, hqp, cleanupOutgoing, mapUpdate]

/-- The cleanup loop empties the UMP queue of every visited para and
leaves the others untouched. -/
theorem foldl_cleanup_rdq (l : List ParaId) (s : State) (q : ParaId) :
    (l.foldl cleanupOutgoing s).relayDispatchQueues q =
      if q ∈ l then [] else s.relayDispatchQueues q := by
  induction l generalizing s with
  | nil => simp
  | cons p rest ih =>
    rw [List.foldl_cons, ih]
    by_cases hq : q ∈ rest
    · simp [hq]
    · by_cases hqp : q = p
      · subst hqp; simp [hq, cleanupOutgoing, mapUpdate]
      · simp [hq, hqp, cleanupOutgoing, mapUpdate]

/-- The cleanup loop resets the UMP size cache of every visited para and
leaves the others untouched. -/
theorem foldl_cleanup_size (l : List ParaId) (s : State) (q : ParaId) :
    (l.foldl cleanupOutgoing s).relayDispatchQueueSize q =
      if q ∈ l then (0, 0) else s.relayDispatchQueueSize q := by
  induction l generalizing s with
  | nil => simp
  | cons p rest ih =>
    rw [List.foldl_cons, ih]
    by_cases hq : q ∈ rest
    · simp [hq]
    · by_cases hqp : q = p
      · subst hqp; simp [hq, cleanupOutgoing, mapUpdate]
      · simp [hq, hqp, cleanupOutgoing, mapUpdate]

/-- Membership in `NeedsDispatch` after the cleanup loop, on a
duplicate-free `NeedsDispatch`. -/
theorem foldl_cleanup_needs (l : List ParaId) (s : State) (q : ParaId)
    (hnd : s.needsDispatch.Nodup) :
    (q ∈ (l.foldl cleanupOutgoing s).needsDispatch ↔
      q ∈ s.needsDispatch ∧ q ∉ l) := by
  induction l generalizing s with
  | nil => simp
  | cons p rest ih =>
    rw [List.foldl_cons, ih _ (List.Nodup.erase p hnd)]
    show q ∈ s.needsDispatch.erase p ∧ q ∉ rest ↔ _
    rw [List.Nodup.mem_erase_iff hnd]
    simp only [List.mem_cons]
    tauto

/-- The cleanup loop never touches `OutgoingParas` or any HRMP storage
item. -/
theorem foldl_cleanup_rest (l : List ParaId) (s : State) :
    (l.foldl cleanupOutgoing s).outgoingParas = s.outgoingParas ∧
    (l.foldl cleanupOutgoing s).hrmpOpenChannelRequests = s.hrmpOpenChannelRequests ∧
    (l.foldl cleanupOutgoing s).hrmpOpenChannelRequestsList = s.hrmpOpenChannelRequestsList ∧
    (l.foldl cleanupOutgoing s).hrmpOpenChannelRequestCount = s.hrmpOpenChannelRequestCount ∧
    (l.foldl cleanupOutgoing s).hrmpAcceptedChannelRequestCount = s.hrmpAcceptedChannelRequestCount ∧
    (l.foldl cleanupOutgoing s).hrmpCloseChannelRequests = s.hrmpCloseChannelRequests ∧
    (l.foldl cleanupOutgoing s).hrmpCloseChannelRequestsList = s.hrmpCloseChannelRequestsList ∧
    (l.foldl cleanupOutgoing s).hrmpWatermarks = s.hrmpWatermarks ∧
    (l.foldl cleanupOutgoing s).hrmpChannels = s.hrmpChannels ∧
    (l.foldl cleanupOutgoing s).hrmpIngressChannelsIndex = s.hrmpIngressChannelsIndex ∧
    (l.foldl cleanupOutgoing s).hrmpEgressChannelsIndex = s.hrmpEgressChannelsIndex ∧
    (l.foldl cleanupOutgoing s).hrmpChannelContents = s.hrmpChannelContents ∧
    (l.foldl cleanupOutgoing s).hrmpChannelDigests = s.hrmpChannelDigests := by
  induction l generalizing s with
  | nil =>
    exact ⟨rfl, rfl, rfl, rfl, rfl, rfl, rfl, rfl, rfl, rfl, rfl, rfl, rfl⟩
  | cons p rest ih =>
    rw [List.foldl_cons]
    exact ih (cleanupOutgoing s p)

/-- Claim C9: `initializer_on_new_session` empties `OutgoingParas`; for
every para that was in it the DMP queue and MQC head, the UMP queue and
its size cache, and the `NeedsDispatch` entry are removed; the same five
items of every para not in `OutgoingParas` are left unchanged. -/
theorem on_new_session_cleanup_frame (s : State)
    (hsorted : List.Sorted (· < ·) s.needsDispatch) :
    (initializer_on_new_session s).outgoingParas = [] ∧
    (∀ p, p ∈ s.outgoingParas →
      (initializer_on_new_session s).downwardMessageQueues p = [] ∧
      (initializer_on_new_session s).downwardMessageQueueHeads p = none ∧
      (initializer_on_new_session s).relayDispatchQueues p = [] ∧
      (initializer_on_new_session s).relayDispatchQueueSize p = (0, 0) ∧
      p ∉ (initializer_on_new_session s).needsDispatch) ∧
    (∀ p, p ∉ s.outgoingParas →
      (initializer_on_new_session s).downwardMessageQueues p = s.downwardMessageQueues p ∧
      (initializer_on_new_session s).downwardMessageQueueHeads p = s.downwardMessageQueueHeads p ∧
      (initializer_on_new_session s).relayDispatchQueues p = s.relayDispatchQueues p ∧
      (initializer_on_new_session s).relayDispatchQueueSize p = s.relayDispatchQueueSize p ∧
      (p ∈ (initializer_on_new_session s).needsDispatch ↔ p ∈ s.needsDispatch)) := by
  have hnd : s.needsDispatch.Nodup := hsorted.nodup
  refine ⟨(foldl_cleanup_rest s.outgoingParas _).1, ?_, ?_⟩
  · intro p hp
    refine ⟨?_, ?_, ?_, ?_, ?_⟩
    · rw [initializer_on_new_session, foldl_cleanup_dmq, if_pos hp]
    · rw [initializer_on_new_session, foldl_cleanup_heads, if_pos hp]
    · rw [initializer_on_new_session, foldl_cleanup_rdq, if_pos hp]
    · rw [initializer_on_new_session, foldl_cleanup_size, if_pos hp]
    · rw [initializer_on_new_session]
      intro hmem
      exact ((foldl_cleanup_needs s.outgoingParas
        { s with outgoingParas := [] } p hnd).1 hmem).2 hp
  · intro p hp
    refine ⟨?_, ?_, ?_, ?_, ?_⟩
    · rw [initializer_on_new_session, foldl_cleanup_dmq, if_neg hp]
    · rw [initializer_on_new_session, foldl_cleanup_heads, if_neg hp]
    · rw [initializer_on_new_session, foldl_cleanup_rdq, if_neg hp]
    · rw [initializer_on_new_session, foldl_cleanup_size, if_neg hp]
    · rw [initializer_on_new_session, foldl_cleanup_needs s.outgoingParas
        { s with outgoingParas := [] } p hnd]
      tauto

/-- Witness for C9, scenario S1: after the session change the DMP queues of
the scheduled paras 1312 and 228 are emptied, the queue of 123 survives
unchanged, and `OutgoingParas` is empty. -/
theorem on_new_session_cleanup_frame_witness :
    (initializer_on_new_session c9State).outgoingParas = [] ∧
    (initializer_on_new_session c9State).downwardMessageQueues 1312 = [] ∧
    (initializer_on_new_session c9State).downwardMessageQueues 228 = [] ∧
    (initializer_on_new_session c9State).downwardMessageQueues 123 =
      c9State.downwardMessageQueues 123 := by
  have h := on_new_session_cleanup_frame c9State (by decide)
  exact ⟨h.1, (h.2.1 1312 (by decide)).1, (h.2.1 228 (by decide)).1,
    (h.2.2 123 (by decide)).1⟩

/-- Claim C3 (amended): `initializer_on_new_session` leaves every HRMP
storage item entirely unchanged — no close requests are synthesized and no
HRMP entry involving a drained para is removed. -/
theorem on_new_session_leaves_hrmp_unchanged (s : State) :
    (initializer_on_new_session s).hrmpOpenChannelRequests = s.hrmpOpenChannelRequests ∧
    (initializer_on_new_session s).hrmpOpenChannelRequestsList = s.hrmpOpenChannelRequestsList ∧
    (initializer_on_new_session s).hrmpOpenChannelRequestCount = s.hrmpOpenChannelRequestCount ∧
    (initializer_on_new_session s).hrmpAcceptedChannelRequestCount = s.hrmpAcceptedChannelRequestCount ∧
    (initializer_on_new_session s).hrmpCloseChannelRequests = s.hrmpCloseChannelRequests ∧
    (initializer_on_new_session s).hrmpCloseChannelRequestsList = s.hrmpCloseChannelRequestsList ∧
    (initializer_on_new_session s).hrmpWatermarks = s.hrmpWatermarks ∧
    (initializer_on_new_session s).hrmpChannels = s.hrmpChannels ∧
    (initializer_on_new_session s).hrmpIngressChannelsIndex = s.hrmpIngressChannelsIndex ∧
    (initializer_on_new_session s).hrmpEgressChannelsIndex = s.hrmpEgressChannelsIndex ∧
    (initializer_on_new_session s).hrmpChannelContents = s.hrmpChannelContents ∧
    (initializer_on_new_session s).hrmpChannelDigests = s.hrmpChannelDigests := by
  have h := foldl_cleanup_rest s.outgoingParas
    { s with outgoingParas := ([] : List ParaId) }
  exact h.2

/-- Counterexample to C3 as stated: para 7 is outgoing and the session
change drains it, yet the `HrmpChannels` entry `(7, 9)` mentioning it is
still populated afterwards. -/
theorem hrmp_cleanup_counterexample :
    c3State.outgoingParas = [7] ∧
    (initializer_on_new_session c3State).outgoingParas = [] ∧
    (initializer_on_new_session c3State).hrmpChannels (7, 9) ≠ none := by
  refine ⟨rfl, rfl, ?_⟩
  decide

/-- Claim C4: a successful `queue_downward_message` sets the MQC head to
`H(prev_head, B, H(msg))` with the all-zero sentinel for a missing previous
head, and the head after a sequence of enqueues depends only on the
starting head and the `(msg, block)` sequence. -/
theorem dmp_mqc_head_update (H : HashScheme) (config : HostConfiguration)
    (para : ParaId) :
    (∀ msg now s s₂,
      queue_downward_message H config para msg now s = (Except.ok (), s₂) →
      s₂.downwardMessageQueueHeads para =
        some (H.hashTuple ((s.downwardMessageQueueHeads para).getD 0) now
          (H.hashMsg msg))) ∧
    (∀ seq s₁ s₂,
      s₁.downwardMessageQueueHeads para = s₂.downwardMessageQueueHeads para →
      (enqueueSeq H config para seq s₁).downwardMessageQueueHeads para =
        (enqueueSeq H config para seq s₂).downwardMessageQueueHeads para) := by
  constructor
  · intro msg now s s₂ h
    by_cases hc : config.critical_downward_message_size < encodedLenVecU8 msg
    · simp [queue_downward_message, hc] at h
    · simp only [queue_downward_message, if_neg hc, Prod.mk.injEq] at h
      rw [← h.2]
      simp [mapUpdate]
  · intro seq
    induction seq with
    | nil => intro s₁ s₂ h; exact h
    | cons pr rest ih =>
      intro s₁ s₂ h
      show (enqueueSeq H config para rest
          (queue_downward_message H config para pr.1 pr.2 s₁).2).downwardMessageQueueHeads para =
        (enqueueSeq H config para rest
          (queue_downward_message H config para pr.1 pr.2 s₂).2).downwardMessageQueueHeads para
      apply ih
      by_cases hc : config.critical_downward_message_size < encodedLenVecU8 pr.1
      · simpa [queue_downward_message, hc] using h
      · simp [queue_downward_message, hc, mapUpdate, h]

/-- Witness for C4: one call on the empty storage produces the head
`H(0, 5, H([1]))`, and two states agreeing on the head but differing
elsewhere produce the same head after the same enqueue. -/
theorem dmp_mqc_head_update_witness :
    c4AfterState.downwardMessageQueueHeads 3 =
      some (testHash.hashTuple 0 5 (testHash.hashMsg [1])) ∧
    (enqueueSeq testHash testConfig 3 [([1], 5)] c9State).downwardMessageQueueHeads 3 =
      (enqueueSeq testHash testConfig 3 [([1], 5)] initState).downwardMessageQueueHeads 3 := by
  constructor
  · exact (dmp_mqc_head_update testHash testConfig 3).1 [1] 5 initState c4AfterState rfl
  · exact (dmp_mqc_head_update testHash testConfig 3).2 [([1], 5)] c9State initState
      (by decide)

/-- The accumulation of `check_upward_messages` / `enact_upward_messages`
computes exact sums as long as they stay below `2 ^ 32`. -/
theorem foldl_queueStep (msgs : List UpwardMessage) :
    ∀ cs : Nat × Nat, cs.1 + msgs.length < 2 ^ 32 →
      cs.2 + (msgs.map List.length).sum < 2 ^ 32 →
      msgs.foldl queueStep cs =
        (cs.1 + msgs.length, cs.2 + (msgs.map List.length).sum) := by
  induction msgs with
  | nil => intro cs _ _; simp
  | cons m rest ih =>
    intro cs hc hs
    simp only [List.length_cons] at hc
    simp only [List.map_cons, List.sum_cons] at hs
    have e1 : (cs.1 + 1) % 2 ^ 32 = cs.1 + 1 := Nat.mod_eq_of_lt (by omega)
    have e2 : (cs.2 + m.length) % 2 ^ 32 = cs.2 + m.length :=
      Nat.mod_eq_of_lt (by omega)
    show rest.foldl queueStep ((cs.1 + 1) % 2 ^ 32, (cs.2 + m.length) % 2 ^ 32) = _
    rw [e1, e2, ih (cs.1 + 1, cs.2 + m.length) (by simp; omega) (by simp; omega)]
    simp only [List.length_cons, List.map_cons, List.sum_cons, Prod.mk.injEq]
    omega

/-- Claim C5 (amended): `check_upward_messages` accepts iff the candidate
count cap holds and the accumulated count and size — computed with `u32`
wrapping additions, hence exactly whenever they stay below `2 ^ 32` — do
not exceed the queue caps; the check reads but never writes the state. -/
theorem check_upward_messages_exact_bounds (config : HostConfiguration)
    (para : ParaId) (upward_messages : List UpwardMessage) (s : State)
    (hc : (s.relayDispatchQueueSize para).1 + upward_messages.length < 2 ^ 32)
    (hs : (s.relayDispatchQueueSize para).2 + (upward_messages.map List.length).sum
      < 2 ^ 32) :
    check_upward_messages config para upward_messages s = true ↔
      (upward_messages.length ≤ config.max_upward_message_num_per_candidate ∧
       (s.relayDispatchQueueSize para).1 + upward_messages.length ≤
         config.max_upward_queue_count ∧
       (s.relayDispatchQueueSize para).2 + (upward_messages.map List.length).sum ≤
         config.max_upward_queue_size) := by
  by_cases h1 : config.max_upward_message_num_per_candidate < upward_messages.length
  · simp only [check_upward_messages, if_pos h1]
    constructor
    · intro h; exact absurd h (by simp)
    · intro h; omega
  · simp only [check_upward_messages, if_neg h1]
    rw [foldl_queueStep upward_messages (s.relayDispatchQueueSize para) hc hs]
    by_cases h2 : config.max_upward_queue_count <
        (s.relayDispatchQueueSize para).1 + upward_messages.length ∨
      config.max_upward_queue_size <
        (s.relayDispatchQueueSize para).2 + (upward_messages.map List.length).sum
    · rw [if_pos h2]
      constructor
      · intro h; exact absurd h (by simp)
      · intro h; omega
    · rw [if_neg h2]
      constructor
      · intro _; omega
      · intro _; rfl

/-- Witness for C5: with queue caps at 5, a stored count of 4 plus one
message lands exactly on the cap and is accepted, while a stored count
of 5 plus one message is rejected. -/
theorem check_upward_messages_exact_bounds_witness :
    check_upward_messages testConfig 1 [[]] c5WitnessState = true ∧
    check_upward_messages testConfig 1 [[]] c5RejState ≠ true := by
  constructor
  · exact (check_upward_messages_exact_bounds testConfig 1 [[]] c5WitnessState
      (by decide) (by decide)).2 (by decide)
  · intro h
    have := (check_upward_messages_exact_bounds testConfig 1 [[]] c5RejState
      (by decide) (by decide)).1 h
    revert this
    decide

/-- Counterexample to C5 as stated: with the stored count at `2 ^ 32 - 1`,
one extra message wraps the `u32` accumulator to `0` and the batch is
accepted although its exact count `2 ^ 32` exceeds the cap `5`. -/
theorem check_upward_messages_wrap_counterexample :
    check_upward_messages testConfig 1 [[]] c5State = true ∧
    ¬((c5State.relayDispatchQueueSize 1).1 + ([([] : List Nat)]).length ≤
      testConfig.max_upward_queue_count) := by
  constructor
  · decide
  · decide

/-- Claim C7 (amended): `enact_upward_messages` with empty `msgs` is a
no-op returning zero weight; with nonempty `msgs` it appends them in
order, adds their count and summed lengths to the size cache with `u32`
wrapping additions — hence exactly whenever the results stay below
`2 ^ 32` — and inserts the para into `NeedsDispatch` keeping it strictly
ascending, preserving the UMP size-cache and `NeedsDispatch` invariants. -/
theorem enact_upward_messages_invariants (dbw : Nat → Nat → Nat) (para : ParaId)
    (upward_messages : List UpwardMessage) (s : State)
    (hump : UmpInvariant s) (hndi : NeedsDispatchInvariant s)
    (hc : (s.relayDispatchQueueSize para).1 + upward_messages.length < 2 ^ 32)
    (hs : (s.relayDispatchQueueSize para).2 + (upward_messages.map List.length).sum
      < 2 ^ 32) :
    (upward_messages = [] → enact_upward_messages dbw para upward_messages s = (0, s)) ∧
    (upward_messages ≠ [] →
      (enact_upward_messages dbw para upward_messages s).2.relayDispatchQueues para =
        s.relayDispatchQueues para ++ upward_messages) ∧
    UmpInvariant (enact_upward_messages dbw para upward_messages s).2 ∧
    NeedsDispatchInvariant (enact_upward_messages dbw para upward_messages s).2 := by
  by_cases hm : upward_messages = []
  · subst hm
    exact ⟨fun _ => rfl, fun h => absurd rfl h, hump, hndi⟩
  · have hne : upward_messages.isEmpty = false := by
      cases upward_messages with
      | nil => exact absurd rfl hm
      | cons a l => rfl
    have hcond : ¬(upward_messages.isEmpty = true) := by simp [hne]
    have hfold : upward_messages.foldl queueStep (0, 0) =
        (upward_messages.length, (upward_messages.map List.length).sum) := by
      have := foldl_queueStep upward_messages (0, 0) (by simp; omega) (by simp; omega)
      simpa using this
    have e1 : ((s.relayDispatchQueueSize para).1 + upward_messages.length) % 2 ^ 32 =
        (s.relayDispatchQueueSize para).1 + upward_messages.length :=
      Nat.mod_eq_of_lt hc
    have e2 : ((s.relayDispatchQueueSize para).2 + (upward_messages.map List.length).sum)
        % 2 ^ 32 =
        (s.relayDispatchQueueSize para).2 + (upward_messages.map List.length).sum :=
      Nat.mod_eq_of_lt hs
    have henact : enact_upward_messages dbw para upward_messages s =
        (0 + dbw 3 3,
         { s with
           relayDispatchQueues := mapUpdate s.relayDispatchQueues para
             (s.relayDispatchQueues para ++ upward_messages)
           relayDispatchQueueSize := mapUpdate s.relayDispatchQueueSize para
             (((s.relayDispatchQueueSize para).1 + upward_messages.length) % 2 ^ 32,
              ((s.relayDispatchQueueSize para).2 +
                (upward_messages.map List.length).sum) % 2 ^ 32)
           needsDispatch := sortedInsert para s.needsDispatch }) := by
      rw [enact_upward_messages, if_neg hcond, hfold]
    have hq : ∀ q, (enact_upward_messages dbw para upward_messages s).2.relayDispatchQueues q =
        if q = para then s.relayDispatchQueues para ++ upward_messages
        else s.relayDispatchQueues q := by
      intro q
      simp only [henact, mapUpdate]
    have hsize : ∀ q,
        (enact_upward_messages dbw para upward_messages s).2.relayDispatchQueueSize q =
        if q = para then
          ((s.relayDispatchQueueSize para).1 + upward_messages.length,
           (s.relayDispatchQueueSize para).2 + (upward_messages.map List.length).sum)
        else s.relayDispatchQueueSize q := by
      intro q
      simp only [henact, mapUpdate, e1, e2]
    have hneeds : (enact_upward_messages dbw para upward_messages s).2.needsDispatch =
        sortedInsert para s.needsDispatch := by
      simp only [henact]
    refine ⟨fun h => absurd h hm, fun _ => by rw [hq para, if_pos rfl], ?_, ?_⟩
    · intro q
      obtain ⟨h1, h2⟩ := hump q
      constructor
      · rw [hq q, hsize q]
        by_cases hqp : q = para
        · rw [if_pos hqp, if_pos hqp]
          subst hqp
          simp [List.length_append, h1]
        · rw [if_neg hqp, if_neg hqp]
          exact h1
      · rw [hq q, hsize q]
        by_cases hqp : q = para
        · rw [if_pos hqp, if_pos hqp]
          subst hqp
          simp [List.map_append, List.sum_append, h2]
        · rw [if_neg hqp, if_neg hqp]
          exact h2
    · constructor
      · rw [hneeds]
        exact sorted_sortedInsert para s.needsDispatch hndi.1
      · intro q
        rw [hneeds, mem_sortedInsert, hq q]
        by_cases hqp : q = para
        · subst hqp
          simp [List.append_eq_nil, hm]
        · simp only [hqp, false_or, if_neg hqp]
          exact hndi.2 q

/-- Witness for C7: a consistent one-message state for para 3 stays
consistent after enacting one further message. -/
theorem enact_upward_messages_invariants_witness :
    UmpInvariant (enact_upward_messages (fun a b => a + b) 3 [[2, 2]] c7WitnessState).2 ∧
    NeedsDispatchInvariant (enact_upward_messages (fun a b => a + b) 3 [[2, 2]] c7WitnessState).2 := by
  have hump : UmpInvariant c7WitnessState := by
    intro p
    by_cases hp : p = 3
    · subst hp; exact ⟨rfl, rfl⟩
    · constructor <;> simp [c7WitnessState, initState, hp]
  have hndi : NeedsDispatchInvariant c7WitnessState := by
    constructor
    · simp [c7WitnessState]
    · intro p
      by_cases hp : p = 3
      · subst hp; simp [c7WitnessState]
      · simp [c7WitnessState, initState, hp]
  have h := enact_upward_messages_invariants (fun a b => a + b) 3 [[2, 2]]
    c7WitnessState hump hndi (by decide) (by decide)
  exact ⟨h.2.2.1, h.2.2.2⟩

/-- The stored queue of the enacted para after a nonempty
`enact_upward_messages`. -/
theorem enact_queues_eq (dbw : Nat → Nat → Nat) (para : ParaId)
    (upward_messages : List UpwardMessage) (s : State)
    (hm : upward_messages.isEmpty = false) :
    (enact_upward_messages dbw para upward_messages s).2.relayDispatchQueues para =
      s.relayDispatchQueues para ++ upward_messages := by
  rw [enact_upward_messages, if_neg (by simp [hm])]
  show mapUpdate s.relayDispatchQueues para
    (s.relayDispatchQueues para ++ upward_messages) para = _
  rw [mapUpdate, if_pos rfl]

/-- The stored size cache of the enacted para after a nonempty
`enact_upward_messages`. -/
theorem enact_size_eq (dbw : Nat → Nat → Nat) (para : ParaId)
    (upward_messages : List UpwardMessage) (s : State)
    (hm : upward_messages.isEmpty = false) :
    (enact_upward_messages dbw para upward_messages s).2.relayDispatchQueueSize para =
      (((s.relayDispatchQueueSize para).1 +
          (upward_messages.foldl queueStep (0, 0)).1) % 2 ^ 32,
       ((s.relayDispatchQueueSize para).2 +
          (upward_messages.foldl queueStep (0, 0)).2) % 2 ^ 32) := by
  rw [enact_upward_messages, if_neg (by simp [hm])]
  show mapUpdate s.relayDispatchQueueSize para _ para = _
  rw [mapUpdate, if_pos rfl]

/-- Counterexample to C7 as stated: with `2 ^ 32 - 1` messages stored and a
consistent cache, enacting one further message wraps the cached `u32`
count to `0` while the queue grows to `2 ^ 32` entries, so the cached size
no longer equals the queue's actual count. -/
theorem enact_upward_messages_wrap_counterexample :
    UmpInvariant c7State ∧
    ¬ UmpInvariant (enact_upward_messages (fun a b => a + b) 1 [[]] c7State).2 := by
  constructor
  · intro p
    by_cases hp : p = 1
    · subst hp
      constructor
      · show (4294967295 : Nat) = (List.replicate 4294967295 ([] : List Nat)).length
        rw [List.length_replicate]
      · show (0 : Nat) = ((List.replicate 4294967295 ([] : List Nat)).map List.length).sum
        rw [List.map_replicate]
        show (0 : Nat) = (List.replicate 4294967295 (0 : Nat)).sum
        rw [List.sum_const_nat]
    · have hq : c7State.relayDispatchQueues p = [] := by
        show (if p = 1 then List.replicate 4294967295 [] else []) = []
        rw [if_neg hp]
      have hz : c7State.relayDispatchQueueSize p = (0, 0) := by
        show (if p = 1 then ((4294967295 : Nat), (0 : Nat)) else (0, 0)) = (0, 0)
        rw [if_neg hp]
      constructor
      · rw [hq, hz]
        rfl
      · rw [hq, hz]
        rfl
  · intro hinv
    have h := (hinv 1).1
    rw [enact_size_eq (fun a b => a + b) 1 [[]] c7State rfl,
      enact_queues_eq (fun a b => a + b) 1 [[]] c7State rfl] at h
    have hz1 : c7State.relayDispatchQueueSize 1 = (4294967295, 0) := by
      show (if (1 : Nat) = 1 then ((4294967295 : Nat), (0 : Nat)) else (0, 0)) =
        (4294967295, 0)
      rw [if_pos rfl]
    have hq1 : c7State.relayDispatchQueues 1 = List.replicate 4294967295 [] := by
      show (if (1 : Nat) = 1 then List.replicate 4294967295 ([] : List Nat) else []) =
        List.replicate 4294967295 []
      rw [if_pos rfl]
    have hf : (([[]] : List UpwardMessage).foldl queueStep (0, 0)) = (1, 0) := rfl
    have hlen : (List.replicate 4294967295 ([] : List Nat) ++ [[]]).length = 4294967296 := by
      rw [List.length_append, List.length_replicate, List.length_singleton]
    rw [hz1] at h
    rw [hq1] at h
    rw [hf] at h
    rw [hlen] at h
    revert h
    decide

/-- Sums over a sublist are no larger. -/
theorem sum_map_sublist {l₁ l₂ : List ParaId} (h : List.Sublist l₁ l₂)
    (f : ParaId → Nat) : (l₁.map f).sum ≤ (l₂.map f).sum := by
  induction h with
  | slnil => simp
  | cons a h ih =>
    simp only [List.map_cons, List.sum_cons]
    omega
  | cons₂ a h ih =>
    simp only [List.map_cons, List.sum_cons]
    omega

/-- Pointwise bounds give sum bounds. -/
theorem sum_map_le_of_le {l : List ParaId} {f g : ParaId → Nat}
    (h : ∀ p ∈ l, f p ≤ g p) : (l.map f).sum ≤ (l.map g).sum := by
  induction l with
  | nil => simp
  | cons a t ih =>
    simp only [List.map_cons, List.sum_cons]
    have h1 := h a (List.mem_cons_self a t)
    have h2 := ih fun p hp => h p (List.mem_cons_of_mem a hp)
    omega

/-- A strict pointwise decrease at a member gives a strict sum decrease. -/
theorem sum_map_lt_of_mem {l : List ParaId} {f g : ParaId → Nat} {d : ParaId}
    (hd : d ∈ l) (hle : ∀ p ∈ l, f p ≤ g p) (hlt : f d < g d) :
    (l.map f).sum < (l.map g).sum := by
  induction l with
  | nil => cases hd
  | cons a t ih =>
    simp only [List.map_cons, List.sum_cons]
    rcases List.mem_cons.1 hd with rfl | hdt
    · have := sum_map_le_of_le fun p hp => hle p (List.mem_cons_of_mem d hp)
      omega
    · have h1 := hle a (List.mem_cons_self a t)
      have h2 := ih hdt fun p hp => hle p (List.mem_cons_of_mem a hp)
      omega

/-- Effective queue length after a cache write. -/
theorem cacheLen_update (cache : ParaId → Option (List UpwardMessage))
    (storage : ParaId → List UpwardMessage) (d : ParaId)
    (q : List UpwardMessage) (p : ParaId) :
    cacheLen (mapUpdate cache d (some q)) storage p =
      if p = d then q.length else cacheLen cache storage p := by
  by_cases hp : p = d
  · simp [cacheLen, mapUpdate, hp]
  · simp [cacheLen, mapUpdate, hp]

/-- Popping a message from the queue of a para of `needs_dispatch`
strictly decreases the loop measure. -/
theorem measure_pop {cache : ParaId → Option (List UpwardMessage)}
    {storage : ParaId → List UpwardMessage} {needs : List ParaId} {d : ParaId}
    {m : UpwardMessage} {rest : List UpwardMessage}
    (hd : d ∈ needs) (hq : (cache d).getD (storage d) = m :: rest) :
    loopMeasure (mapUpdate cache d (some rest)) storage needs <
      loopMeasure cache storage needs := by
  rw [loopMeasure, loopMeasure]
  have hle : ∀ p ∈ needs,
      cacheLen (mapUpdate cache d (some rest)) storage p ≤ cacheLen cache storage p := by
    intro p _
    rw [cacheLen_update]
    by_cases hpd : p = d
    · rw [if_pos hpd, hpd, cacheLen, hq]
      simp
    · rw [if_neg hpd]
  have hlt : cacheLen (mapUpdate cache d (some rest)) storage d <
      cacheLen cache storage d := by
    rw [cacheLen_update, if_pos rfl, cacheLen, hq]
    simp
  have := sum_map_lt_of_mem hd hle hlt
  omega

/-- Erasing a para of `needs_dispatch` whose cached queue became empty
strictly decreases the loop measure. -/
theorem measure_erase {cache : ParaId → Option (List UpwardMessage)}
    {storage : ParaId → List UpwardMessage} {needs : List ParaId} {d : ParaId}
    (hd : d ∈ needs) :
    loopMeasure (mapUpdate cache d (some [])) storage (needs.erase d) <
      loopMeasure cache storage needs := by
  rw [loopMeasure, loopMeasure]
  have h1 : (needs.erase d).length = needs.length - 1 := List.length_erase_of_mem hd
  have hle : ∀ p ∈ needs.erase d,
      cacheLen (mapUpdate cache d (some [])) storage p ≤ cacheLen cache storage p := by
    intro p _
    rw [cacheLen_update]
    by_cases hpd : p = d
    · rw [if_pos hpd]
      simp
    · rw [if_neg hpd]
  have h2 := sum_map_le_of_le hle
  have h3 := sum_map_sublist (List.erase_sublist d needs) (cacheLen cache storage)
  have h4 : 0 < needs.length := List.length_pos.2 (List.ne_nil_of_mem hd)
  omega

/-- Every non-breaking loop iteration strictly decreases the measure. -/
theorem measure_dispatchStep (config : HostConfiguration)
    (storage : ParaId → List UpwardMessage) (ls : LoopState) (d : ParaId)
    (idx : Nat) (hd : d ∈ ls.needsDispatch) :
    loopMeasure (dispatchStep config storage ls d idx).queueCache storage
        (dispatchStep config storage ls d idx).needsDispatch <
      loopMeasure ls.queueCache storage ls.needsDispatch := by
  cases hq : (ls.queueCache d).getD (storage d) with
  | nil =>
    have hcache : (dispatchStep config storage ls d idx).queueCache =
        mapUpdate ls.queueCache d (some []) := by
      simp only [dispatchStep, hq]
    have hneeds : (dispatchStep config storage ls d idx).needsDispatch =
        ls.needsDispatch.erase d := by
      simp only [dispatchStep, hq]
      rfl
    rw [hcache, hneeds]
    exact measure_erase hd
  | cons m rest =>
    have hcache : (dispatchStep config storage ls d idx).queueCache =
        mapUpdate ls.queueCache d (some rest) := by
      simp only [dispatchStep, hq]
    cases hre : rest with
    | nil =>
      have hneeds : (dispatchStep config storage ls d idx).needsDispatch =
          ls.needsDispatch.erase d := by
        simp only [dispatchStep, hq, hre]
        rfl
      rw [hcache, hneeds, hre]
      exact measure_erase hd
    | cons m2 rest2 =>
      have hneeds : (dispatchStep config storage ls d idx).needsDispatch =
          ls.needsDispatch := by
        simp only [dispatchStep, hq, hre]
        rfl
      rw [hcache, hneeds]
      exact measure_pop hd hq

/-- With fuel exceeding the loop measure, the dispatcher loop reaches one
of its `break`s: it neither exhausts the fuel nor hits the `usize` modulo
by zero. -/
theorem dispatchLoop_isSome (config : HostConfiguration)
    (storage : ParaId → List UpwardMessage) :
    ∀ fuel (ls : LoopState),
      loopMeasure ls.queueCache storage ls.needsDispatch < fuel →
      (dispatchLoop config storage fuel ls).isSome = true := by
  intro fuel
  induction fuel with
  | zero => intro ls h; exact absurd h (Nat.not_lt_zero _)
  | succ fuel ih =>
    intro ls h
    cases hget : ls.needsDispatch.get? ls.idx with
    | none =>
      simp only [dispatchLoop, hget]
      rfl
    | some d =>
      have hd : d ∈ ls.needsDispatch := List.get?_mem hget
      have hlen0 : ¬(ls.needsDispatch.length = 0) := by
        intro h0
        rw [List.length_eq_zero] at h0
        rw [h0] at hd
        cases hd
      simp only [dispatchLoop, hget]
      rw [if_neg hlen0]
      by_cases hw : config.preferred_dispatchable_upward_messages_step_weight ≤ ls.weight
      · rw [if_pos hw]
        rfl
      · rw [if_neg hw]
        apply ih
        have := measure_dispatchStep config storage ls d
          ((ls.idx + 1) % ls.needsDispatch.length) hd
        omega

/-- Claim C10: `process_pending_upward_messages` terminates on every
starting state whose `NeedsDispatch` satisfies its documented strictly
ascending invariant — including a `NextDispatchRoundStartWith` naming an
absent para and paras with empty stored queues: the loop, run with fuel
one more than `loopMeasure` (remaining reachable messages plus the list
length), reaches a `break` without exhausting the fuel and without a
modulo by zero. -/
theorem process_pending_loop_terminates (config : HostConfiguration) (s : State)
    (hsorted : List.Sorted (· < ·) s.needsDispatch) :
    (dispatchLoop config s.relayDispatchQueues
        (loopMeasure (fun _ => none) s.relayDispatchQueues s.needsDispatch + 1)
        (initialLoopState s)).isSome = true := by
  apply dispatchLoop_isSome
  show loopMeasure (fun _ => none) s.relayDispatchQueues s.needsDispatch < _ + 1
  omega

/-- Witness for C10 on a state with `NextDispatchRoundStartWith = Some(9)`
absent from `NeedsDispatch = [1, 2]` and para `1` holding an empty stored
queue. -/
theorem process_pending_loop_terminates_witness :
    List.Sorted (· < ·) c10State.needsDispatch ∧
    (dispatchLoop testConfig c10State.relayDispatchQueues
        (loopMeasure (fun _ => none) c10State.relayDispatchQueues c10State.needsDispatch + 1)
        (initialLoopState c10State)).isSome = true :=
  ⟨by decide, process_pending_loop_terminates testConfig c10State (by decide)⟩

/-- Claim C2 (code bug evaluation): running
`process_pending_upward_messages` on a state with one pending message for
para `1` dispatches the message (removing `1` from `NeedsDispatch`) but
never writes the drained `queue_cache` back: the stored
`RelayDispatchQueues[1]` still holds the dispatched message and
`RelayDispatchQueueSize[1]` still reads `(1, 1)`, so the claimed stored
invariants are violated. -/
theorem process_pending_no_flush_evaluation :
    (process_pending_upward_messages testConfig c2State).needsDispatch = [] ∧
    (process_pending_upward_messages testConfig c2State).relayDispatchQueues 1 = [[1]] ∧
    (process_pending_upward_messages testConfig c2State).relayDispatchQueueSize 1 = (1, 1) ∧
    (process_pending_upward_messages testConfig c2State).nextDispatchRoundStartWith = none := by
  refine ⟨?_, rfl, rfl, ?_⟩ <;> decide

end Router
